import Mathlib

set_option maxHeartbeats 1000000
set_option maxRecDepth 2048

/-!
Verification of the task-dispatch subsystem of sdc-cn-agent.

The definitions below are a shallow embedding of:
  * `lib/task_agent/task_agent.js` — the dispatcher (`TaskAgent.setupTaskRoutes`'s
    `handler` closure and its dual-callback completion gate `fcb`);
  * `lib/backends/dummy/tasks/machine_create.js` — the machine_create task
    (`start`, `pre_check`, `map_thing`, `map_payload`) and the recovery
    configuration task (`RecoveryConfigTask` `start`).
-/

namespace SdcCnAgent

/-! ### JavaScript-style values -/

/-- A JavaScript value, as far as the dispatcher and the tasks manipulate them.
Objects are insertion-ordered association lists (as JS objects with string keys are). -/
inductive Val where
  | undefined : Val
  | null : Val
  | bool : Bool → Val
  | num : Int → Val
  | str : String → Val
  | arr : List Val → Val
  | obj : List (String × Val) → Val

/-- JavaScript truthiness, used by `if (error)` in the dispatcher's `fcb`. -/
def truthy : Val → Bool
  | .undefined => false
  | .null => false
  | .bool b => b
  | .num n => n != 0
  | .str s => s != ""
  | .arr _ => true
  | .obj _ => true

/-- `v === undefined`. A key absent from an object reads as `undefined`. -/
def isUndef : Val → Bool
  | .undefined => true
  | _ => false

/-- JavaScript `ToString`, used where the source concatenates a value onto a string
(`newPayload.zpool + '/' + newPayload.uuid`). -/
def jsToString : Val → String
  | .undefined => "undefined"
  | .null => "null"
  | .bool b => if b then "true" else "false"
  | .num n => toString n
  | .str s => s
  | .arr _ => ""
  | .obj _ => "[object Object]"

/-- Property read on a JS object: the first binding of the key, else `undefined`. -/
def getKey (o : List (String × Val)) (k : String) : Val :=
  match o.find? (fun m => m.1 == k) with
  | some m => m.2
  | none => Val.undefined

/-- Property assignment on a JS object: update the existing binding in place,
or append a new binding. -/
def setKey : List (String × Val) → String → Val → List (String × Val)
  | [], k, v => [(k, v)]
  | m :: o, k, v => if m.1 == k then (k, v) :: o else m :: setKey o k v

/-- `if (c) o[k] = v;` -/
def setKeyIf (c : Bool) (o : List (String × Val)) (k : String) (v : Val) :
    List (String × Val) :=
  if c then setKey o k v else o

/-- The list of keys of a JS object (in insertion order). -/
def keysOf (o : List (String × Val)) : List String := o.map Prod.fst

/-! ### The dispatcher's completion gate

`task_agent.js` lines 132–172: per request, the closure `fcb` increments `cbcount`
and sends the single response exactly when `cbcount === 2`; the `params` object
handed to the task exposes `finish()` (calls `fcb`), `progress(v)` (a no-op) and
`event(name, message)` (`"finish"` records the value then calls `fcb`; `"error"`
records the error).  We model the stream of calls a task makes into these
primitives as a list of `Signal`s and run them through the gate's state. -/

/-- One call from the task implementation into the dispatcher-provided context:
`params.finish()` or `params.event(name, message)`. -/
inductive Signal where
  | finish : Signal
  | ev : String → Val → Signal

/-- The dispatcher's per-request mutable state: `cbcount`, `value`, `error`
(task_agent.js lines 132–134) and the list of responses sent via `res.send`. -/
structure DispatchSt where
  cbcount : Nat
  value : Val
  error : Val
  responses : List (Nat × Val)

/-- `fcb` (task_agent.js lines 135–147): increment `cbcount`; when it reaches 2,
send `(500, error)` if `error` is truthy, else `(200, value)`. -/
def fcb (s : DispatchSt) : DispatchSt :=
  if s.cbcount + 1 = 2 then
    { s with
        cbcount := s.cbcount + 1,
        responses := s.responses ++
          [if truthy s.error then (500, s.error) else (200, s.value)] }
  else
    { s with cbcount := s.cbcount + 1 }

/-- Processing of one signal (task_agent.js lines 157–171): `finish()` calls `fcb`;
`event("finish", m)` assigns `value = m` then calls `fcb`; `event("error", m)`
assigns `error = m`; any other event only logs. -/
def stepSig (s : DispatchSt) : Signal → DispatchSt
  | .finish => fcb s
  | .ev name message =>
    if name = "finish" then fcb { s with value := message }
    else if name = "error" then { s with error := message }
    else s

/-- Fresh per-request state: `cbcount = 0`, `value` and `error` undefined, nothing sent. -/
def initialDispatchSt : DispatchSt := ⟨0, .undefined, .undefined, []⟩

/-- Run the gate from a given state over a stream of signals. -/
def processFrom (s : DispatchSt) (sigs : List Signal) : DispatchSt :=
  sigs.foldl stepSig s

/-- Run one request's gate from its fresh state. -/
def runSignals (sigs : List Signal) : DispatchSt :=
  processFrom initialDispatchSt sigs

/-- Signals that invoke `fcb` (acknowledgment signals): `finish()` and
`event("finish", _)`. -/
def isAck : Signal → Bool
  | .finish => true
  | .ev name _ => name == "finish"

/-- Number of acknowledgment signals in a stream. -/
def ackCount (sigs : List Signal) : Nat := sigs.countP isAck

/-- The prefix of a stream up to and including its `n`-th acknowledgment signal. -/
def takeAcks : Nat → List Signal → List Signal
  | _, [] => []
  | n, sg :: rest =>
    if isAck sg then
      if n ≤ 1 then [sg] else sg :: takeAcks (n - 1) rest
    else
      sg :: takeAcks n rest

/-- The value of the `error` variable after a stream of signals, starting from `e`. -/
def errValFrom (e : Val) (sigs : List Signal) : Val :=
  sigs.foldl (fun a sg =>
    match sg with
    | .ev name message => if name = "error" then message else a
    | _ => a) e

/-- The value of the `value` variable after a stream of signals, starting from `v`. -/
def finValFrom (v : Val) (sigs : List Signal) : Val :=
  sigs.foldl (fun a sg =>
    match sg with
    | .ev name message => if name = "finish" then message else a
    | _ => a) v

/-- The response `fcb` sends on the second acknowledgment, given the current
`error` and `value` variables. -/
def mkRespV (e v : Val) : Nat × Val :=
  if truthy e then (500, e) else (200, v)

/-! ### The dispatcher's request handler

`task_agent.js` lines 83–182: the `handler` closure of `setupTaskRoutes`.
Its observable behaviour per request is modelled as the list of actions it
performs: errors passed to `next(...)`, connection-timeout updates, the log
line produced by the parameter-logging step, and the invocation of the
resolved task function. -/

/-- The parts of the incoming request the handler reads: the `x-server-uuid`
header, and the presence/value of the `task` and `params` keys of `req.params`
(`hasOwnProperty` checks). -/
structure Request where
  xServerUuid : Option String
  task : Option String
  params : Option Val

/-- One entry of `queueDefns` (read by the `forEach` on lines 115–123): a set of
task names, the optional `log_params` flag (the source tests `=== false`), and
the `onhttpmsg` handler, identified here by a number. -/
structure QueueDefn where
  tasks : List String
  log_params : Option Bool
  onhttpmsg : Nat
deriving DecidableEq

/-- The restify error classes the handler uses. -/
inductive RestError where
  | internalError : String → RestError
  | invalidArgument : String → RestError
  | resourceNotFound : String → RestError

/-- The dispatcher's parameter-logging step (lines 125–130): either the full
request parameters are logged, or only a suppression notice naming the task. -/
inductive LogLine where
  | withParams : String → Val → LogLine
  | suppressed : String → LogLine

/-- An observable action of the handler, in order of occurrence. -/
inductive Action where
  | sentError : RestError → Action
  | setTimeout : Nat → Action
  | logged : LogLine → Action
  | invokedTask : Nat → Val → Action

/-- The wrong-server error message (lines 88–89), naming expected and received
identifiers. -/
def wrongServerMsg (uuid target : String) : String :=
  "received request for wrong server. we are: \x22" ++ uuid ++
    ("\x22 received: \x22" ++ target ++ "\x22")

/-- Lines 115–123: `logParams` starts `true` and is forced `false` when any
queue definition contains the task with `log_params === false`. -/
def lookupLogParams (defns : List QueueDefn) (taskName : String) : Bool :=
  !(defns.any (fun d => d.tasks.contains taskName && d.log_params == some false))

/-- Lines 115–123 and 175: the `dispatch` map assigns `dispatch[j] = i.onhttpmsg`
for every task `j` of every definition `i` in order, so the last definition
containing the task wins. -/
def lookupTaskFn (defns : List QueueDefn) (taskName : String) : Option Nat :=
  (defns.reverse.find? (fun d => d.tasks.contains taskName)).map
    (fun d => d.onhttpmsg)

/-- The body of the handler past the target check (lines 93–181): require the
`task` key then the `params` key; extend both connection timeouts to
`(timeoutSeconds + 300) * 1000` ms; produce the parameter log line; then invoke
the resolved task function, or send ResourceNotFoundError when the task name
resolves to nothing. -/
def handlerEnvelope (timeoutSeconds : Nat) (defns : List QueueDefn)
    (req : Request) : List Action :=
  match req.task with
  | none => [Action.sentError (RestError.invalidArgument "Missing key \x27task\x27")]
  | some taskName =>
    match req.params with
    | none =>
      [Action.sentError (RestError.invalidArgument "Missing key \x27params\x27")]
    | some p =>
      [Action.setTimeout ((timeoutSeconds + 300) * 1000),
       Action.logged
         (if lookupLogParams defns taskName then LogLine.withParams taskName p
          else LogLine.suppressed taskName)] ++
        (match lookupTaskFn defns taskName with
         | some h => [Action.invokedTask h p]
         | none =>
           [Action.sentError (RestError.resourceNotFound
             ("Unknown task, \x27" ++ taskName ++ "\x27"))])

/-- The full handler (lines 83–182).  First (lines 84–91): if an `x-server-uuid`
header is present and differs from our uuid, fail with InternalError at once. -/
def handler (uuid : String) (timeoutSeconds : Nat) (defns : List QueueDefn)
    (req : Request) : List Action :=
  match req.xServerUuid with
  | some target =>
    if target = uuid then handlerEnvelope timeoutSeconds defns req
    else [Action.sentError (RestError.internalError (wrongServerMsg uuid target))]
  | none => handlerEnvelope timeoutSeconds defns req

/-- The log lines among a handler run's actions. -/
def loggedLines (acts : List Action) : List LogLine :=
  acts.filterMap (fun a => match a with | .logged l => some l | _ => none)

/-- Modelled from the spec (§3/§4.3; `task_runner.js` is not among the sources):
exactly one TaskInstance exists per accepted request — the Runner constructs it
when the dispatcher invokes the resolved task function, and never otherwise. -/
def createdTaskInstances (acts : List Action) : Nat :=
  acts.countP (fun a => match a with | .invokedTask _ _ => true | _ => false)

/-- Modelled from the spec (§4.3; `task_runner.js` is not among the sources):
the Runner appends one HistoryEntry per TaskInstance upon its completion, so no
invocation means no HistoryEntry. -/
def appendedHistoryEntries (acts : List Action) : Nat :=
  createdTaskInstances acts

/-! ### machine_create payload mapping

`machine_create.js` lines 24–79 (the whitelists) and 325–418
(`map_thing` / `map_payload`). -/

/-- `DISK_PAYLOAD` (lines 24–30): `some b` models presence with value `b`;
`none` models an absent key. -/
def DISK_PAYLOAD : String → Option Bool := fun k =>
  match k with
  | "image_name" => some true
  | "image_size" => some true
  | "image_uuid" => some true
  | "refreservation" => some true
  | "size" => some true
  | _ => none

/-- `NIC_PAYLOAD` (lines 31–48). -/
def NIC_PAYLOAD : String → Option Bool := fun k =>
  match k with
  | "belongs_to_type" => some false
  | "belongs_to_uuid" => some false
  | "cn_uuid" => some false
  | "created_timestamp" => some false
  | "ip" => some true
  | "mac" => some true
  | "modified_timestamp" => some false
  | "mtu" => some true
  | "netmask" => some true
  | "network_uuid" => some true
  | "nic_tag" => some true
  | "primary" => some true
  | "resolvers" => some false
  | "state" => some false
  | "owner_uuid" => some false
  | "vlan_id" => some true
  | _ => none

/-- `VM_PAYLOAD` (lines 49–79). -/
def VM_PAYLOAD : String → Option Bool := fun k =>
  match k with
  | "alias" => some true
  | "archive_on_delete" => some true
  | "billing_id" => some true
  | "brand" => some true
  | "cpu_cap" => some true
  | "cpu_shares" => some true
  | "cpu_type" => some true
  | "customer_metadata" => some true
  | "dataset_url" => some false
  | "dataset_url_compression" => some false
  | "disk_driver" => some true
  | "disks" => some true
  | "firewall_enabled" => some false
  | "image" => some false
  | "image_uuid" => some true
  | "gpus" => some true
  | "max_lwps" => some true
  | "max_physical_memory" => some true
  | "max_swap" => some true
  | "nic_driver" => some true
  | "nics" => some true
  | "owner_uuid" => some true
  | "server_uuid" => some true
  | "quota" => some true
  | "ram" => some true
  | "resolvers" => some true
  | "uuid" => some true
  | "vcpus" => some true
  | "zfs_io_priority" => some false
  | _ => none

/-- The elements of an array value (`map_thing` receives `payload[key]`, which
`assert.arrayOfObject` requires to be an array). -/
def arrElems : Val → List Val
  | .arr xs => xs
  | _ => []

/-- The fields of an object value (non-objects are rejected by
`assert.arrayOfObject` before reaching the loop). -/
def objFields : Val → List (String × Val)
  | .obj fields => fields
  | _ => []

/-- The inner loop of `map_thing` (lines 336–351) building `newThing`: keep a
key when the map holds `true` for it; keys mapped `false` are dropped, unknown
keys are dropped and recorded in `opts.ignored` (log-only bookkeeping, not
modelled). -/
def map_thing_fields (MAP : String → Option Bool) (fields : List (String × Val)) :
    List (String × Val) :=
  fields.foldl (fun nt m =>
    match MAP m.1 with
    | some true => setKey nt m.1 m.2
    | _ => nt) []

/-- `map_thing` (lines 325–354): map every element of the array through the
per-element whitelist. -/
def map_thing (MAP : String → Option Bool) (things : List Val) : List Val :=
  things.map (fun t => Val.obj (map_thing_fields MAP (objFields t)))

/-- One iteration of the `map_payload` key loop (lines 368–384): `nics` and
`disks` are special-cased through `map_thing`; other keys are copied when
`VM_PAYLOAD` holds `true`, dropped (and, when unknown, recorded in the ignored
list — log-only, not modelled) otherwise. -/
def scanStep (np : List (String × Val)) (m : String × Val) :
    List (String × Val) :=
  if m.1 == "nics" then
    setKey np "nics" (Val.arr (map_thing NIC_PAYLOAD (arrElems m.2)))
  else if m.1 == "disks" then
    setKey np "disks" (Val.arr (map_thing DISK_PAYLOAD (arrElems m.2)))
  else
    match VM_PAYLOAD m.1 with
    | some true => setKey np m.1 m.2
    | _ => np

/-- What `scanStep` writes for a given input binding, if anything. -/
def scanWrite (m : String × Val) : Option Val :=
  if m.1 == "nics" then some (Val.arr (map_thing NIC_PAYLOAD (arrElems m.2)))
  else if m.1 == "disks" then some (Val.arr (map_thing DISK_PAYLOAD (arrElems m.2)))
  else
    match VM_PAYLOAD m.1 with
    | some true => some m.2
    | _ => none

/-- The key loop of `map_payload` over `Object.keys(payload)` (lines 368–384). -/
def map_payload_scan (p : List (String × Val)) : List (String × Val) :=
  p.foldl scanStep []

/-- JavaScript strict equality of a value against a string literal, as used by
`['bhyve', 'kvm'].indexOf(newPayload.brand) !== -1`. -/
def valEqStr (v : Val) (s : String) : Bool :=
  match v with
  | .str t => t == s
  | _ => false

/-- The defaults block of `map_payload` (lines 386–410), applied in source
order.  The nested `if` for `disks` (brand test, then `=== undefined` test)
is expressed as the conjunction of both conditions. -/
def applyDefaults (np0 : List (String × Val)) : List (String × Val) :=
  let np1 := setKeyIf (isUndef (getKey np0 "nics")) np0 "nics" (Val.obj [])
  let np2 := setKeyIf
    ((valEqStr (getKey np1 "brand") "bhyve" || valEqStr (getKey np1 "brand") "kvm")
      && isUndef (getKey np1 "disks")) np1 "disks" (Val.obj [])
  let np3 := setKey np2 "autoboot" (Val.bool true)
  let np4 := setKey np3 "datasets" (Val.arr [])
  let np5 := setKey np4 "limit_priv" (Val.str "default")
  let np6 := setKeyIf
    (isUndef (getKey np5 "max_locked_memory") && !isUndef (getKey np5 "max_swap"))
    np5 "max_locked_memory" (getKey np5 "max_swap")
  let np7 := setKeyIf (isUndef (getKey np6 "zpool")) np6 "zpool" (Val.str "zones")
  let np8 := setKey np7 "zfs_filesystem"
    (Val.str (jsToString (getKey np7 "zpool") ++ "/" ++ jsToString (getKey np7 "uuid")))
  let np9 := setKey np8 "zonepath"
    (Val.str ("/" ++ jsToString (getKey np8 "zfs_filesystem")))
  setKeyIf (isUndef (getKey np9 "zfs_io_priority")) np9 "zfs_io_priority"
    (Val.num 100)

/-- `map_payload` (lines 356–418): the whitelist scan followed by the defaults
block.  The final warning log of ignored keys does not affect the result. -/
def map_payload (p : List (String × Val)) : List (String × Val) :=
  applyDefaults (map_payload_scan p)

/-! ### machine_create task pipeline

`machine_create.js` lines 169–483. -/

/-- Outcome of one task run: `finish(result)` with a payload, bare `finish()`,
or `fatal(msg, extra)`. -/
inductive TaskOutcome where
  | complete : Val → TaskOutcome
  | completeNoRes : TaskOutcome
  | failed : String → Option Val → TaskOutcome

/-- TaskInstance states (spec §4.3). -/
inductive TaskState where
  | PENDING : TaskState
  | RUNNING : TaskState
  | COMPLETE : TaskState
  | FAILED : TaskState

/-- Modelled from the spec (§4.2/§4.3; `task.js` is not among the sources):
`finish()` transitions the TaskInstance to COMPLETE, `fatal()` to FAILED. -/
def taskStateOf : TaskOutcome → TaskState
  | .complete _ => .COMPLETE
  | .completeNoRes => .COMPLETE
  | .failed _ _ => .FAILED

/-- Modelled from the spec (§6 collaborator contract; the dummy backend's vmadm
library is not among the sources): the resource manager holds a store of machine
records keyed by uuid; `vmadm.exists` queries it, `vmadm.create` adds the
constructed payload as the new record, `vmadm.load` retrieves a record. -/
structure DummyWorld where
  machines : List (String × Val)

/-- `vmadm.load`: the record stored under the uuid, if any. -/
def lookupVm (w : DummyWorld) (u : String) : Option Val :=
  (w.machines.find? (fun m => m.1 == u)).map (fun m => m.2)

/-- `vmadm.exists` with `include_dni: true`. -/
def vmExists (w : DummyWorld) (u : String) : Bool :=
  (lookupVm w u).isSome

/-- `assert.uuid(self.req.params.uuid)` guarantees a string uuid. -/
def uuidStr : Val → String
  | .str s => s
  | _ => ""

/-- `pre_check` (lines 255–292): fail when a VM with the uuid exists (message
`'Machine <uuid> exists.'`); the dataset-existence check is a no-op (`cb()`). -/
def pre_check (w : DummyWorld) (u : String) : Option String :=
  if vmExists w u then some ("Machine " ++ u ++ " exists.") else none

/-- Result of one `machine_create` run: the task outcome, the pipeline functions
that executed (in order), and the resulting resource store. -/
structure MCResult where
  outcome : TaskOutcome
  executed : List String
  world : DummyWorld

/-- The pipeline functions of `start` (lines 185–220) in declaration order. -/
def mcExecutedSteps : List String :=
  ["pre_check", "create_lock", "ensure_dataset_present", "fetch_dataset",
   "build_payload", "create_machine", "delete_lock"]

/-- `start` of machine_create (lines 177–253).  On a pre-check failure,
`_doPrecheck` calls `self.fatal(err.message)` and never invokes its pipeline
callback, so no later function (nor `_afterPipeline`) runs.  Otherwise:
`_createProvisionLockFile` ignores errors; `ensure_dataset_present` sets
`dataset_exists = true` so `fetch_dataset` skips the fetch; `build_payload`
runs `map_payload` over the request parameters; `create_machine` stores the
payload (vmadm.create removes the `log`/`req_id`/`sysinfo` fields it is passed,
per the source comment on lines 441–442); `_deleteProvisionLockFile` only logs
errors.  `_afterPipeline` then loads the record back and calls
`finish({vm: machine})`, or bare `finish()` when the load fails. -/
def machineCreateStart (w : DummyWorld) (params : List (String × Val)) :
    MCResult :=
  let u := uuidStr (getKey params "uuid")
  match pre_check w u with
  | some errMsg => ⟨.failed errMsg none, ["pre_check"], w⟩
  | none =>
    let payload := Val.obj (map_payload params)
    let w2 : DummyWorld := ⟨w.machines ++ [(u, payload)]⟩
    match lookupVm w2 u with
    | some machine => ⟨.complete (.obj [("vm", machine)]), mcExecutedSteps, w2⟩
    | none => ⟨.completeNoRes, mcExecutedSteps, w2⟩

/-- One entry of `MachineCreateTask.createSteps`. -/
structure StepDefn where
  name : String
  progress : Nat
  description : String

/-- `MachineCreateTask.createSteps` (lines 457–483), in declaration order. -/
def machineCreateCreateSteps : List StepDefn :=
  [⟨"pre_check", 20, "Performing pre-flight sanity check"⟩,
   ⟨"ensure_dataset_present", 30, "Checking for required image/dataset"⟩,
   ⟨"fetch_dataset", 50, "Fetching image/dataset"⟩,
   ⟨"build_payload", 60, "Building VM payload"⟩,
   ⟨"create_machine", 100, "Creating machine"⟩]

/-! ### Recovery-configuration task progress

`machine_create.js` (second part of the file) lines 553–750: the `start` of
`RecoveryConfigTask` is a `vasync.waterfall`; we model, for every execution
path, the sequence of values passed to `self.progress(...)`. -/

/-- The `action` request parameter after validation:
`['activate', 'stage'].indexOf(action)`. -/
inductive RecoveryAction where
  | activate : RecoveryAction
  | stage : RecoveryAction
  | other : RecoveryAction
deriving DecidableEq

/-- The environmental outcomes that determine the control path of the recovery
waterfall: truthiness of the required parameters, the action, template
presence, and success/failure of each external interaction.  The final KBMAPI
put is not included: `self.progress(100)` is called before its error check, so
it cannot affect the progress trace. -/
structure RecoveryEnv where
  requiredPresent : Bool
  action : RecoveryAction
  templatePresent : Bool
  sdcConfigOk : Bool
  dnsOk : Bool
  addrsNonEmpty : Bool
  zpoolEncrypted : Bool
  stagedMatches : Bool
  writeSysinfoOk : Bool

/-- The sequence of `self.progress(...)` values over one run of the recovery
waterfall: 10 after DNS resolution, 25 after the sysinfo check, 50 in
`saveTemplate` (stage path only), 65 in `doAction`, 75 after the sysinfo write,
100 in the KBMAPI callback.  A failing waterfall function truncates the rest. -/
def recoveryProgressTrace (e : RecoveryEnv) : List Nat :=
  if e.requiredPresent = false then []
  else if e.action = RecoveryAction.other then []
  else if e.action = RecoveryAction.stage ∧ e.templatePresent = false then []
  else if e.sdcConfigOk = false then []
  else if e.dnsOk = false then []
  else if e.addrsNonEmpty = false then []
  else
    10 ::
      (if e.zpoolEncrypted = false then []
       else 25 ::
        (if e.action = RecoveryAction.activate ∧ e.stagedMatches = false then []
         else
          (if e.action = RecoveryAction.activate then [] else [50]) ++
            65 :: (if e.writeSysinfoOk = false then [] else [75, 100])))

/-- Boolean check that a list of naturals is non-decreasing (used to decide
progress-trace monotonicity by evaluation). -/
def nondecreasingB : List Nat → Bool
  | [] => true
  | [_] => true
  | a :: b :: t => Nat.ble a b && nondecreasingB (b :: t)

/-! ### Gate lemmas -/

theorem processFrom_nil (s : DispatchSt) : processFrom s [] = s := rfl

theorem processFrom_cons (s : DispatchSt) (sg : Signal) (rest : List Signal) :
    processFrom s (sg :: rest) = processFrom (stepSig s sg) rest := rfl

theorem ackCount_cons (sg : Signal) (rest : List Signal) :
    ackCount (sg :: rest) = (if isAck sg then 1 else 0) + ackCount rest := by
  simp only [ackCount, List.countP_cons]
  split <;> omega

theorem stepSig_past_two (s : DispatchSt) (sg : Signal) (h : 2 ≤ s.cbcount) :
    (stepSig s sg).responses = s.responses ∧ 2 ≤ (stepSig s sg).cbcount := by
  have hne : ¬ (s.cbcount + 1 = 2) := by omega
  cases sg with
  | finish =>
    refine ⟨?_, ?_⟩ <;> simp [stepSig, fcb, hne] <;> omega
  | ev name message =>
    by_cases hf : name = "finish"
    · refine ⟨?_, ?_⟩ <;> simp [stepSig, fcb, hf, hne] <;> omega
    · by_cases he : name = "error"
      · refine ⟨?_, ?_⟩ <;> simp [stepSig, hf, he] <;> omega
      · refine ⟨?_, ?_⟩ <;> simp [stepSig, hf, he] <;> omega

/-- Once the gate has fired (two acknowledgments seen), no further signal ever
sends another response. -/
theorem processFrom_stable (sigs : List Signal) :
    ∀ s : DispatchSt, 2 ≤ s.cbcount →
      (processFrom s sigs).responses = s.responses := by
  induction sigs with
  | nil => intro s _; rfl
  | cons sg rest ih =>
    intro s h
    obtain ⟨hresp, hcb⟩ := stepSig_past_two s sg h
    rw [processFrom_cons, ih _ hcb, hresp]

theorem isAck_finish : isAck Signal.finish = true := rfl

theorem isAck_ev_finish (m : Val) : isAck (Signal.ev "finish" m) = true := rfl

theorem isAck_ev_of_ne (name : String) (m : Val) (h : ¬ name = "finish") :
    isAck (Signal.ev name m) = false := by
  simp [isAck, h]

theorem ackCount_cons_ack (sg : Signal) (rest : List Signal) (h : isAck sg = true) :
    ackCount (sg :: rest) = ackCount rest + 1 := by
  simp [ackCount, List.countP_cons, h]

theorem ackCount_cons_noack (sg : Signal) (rest : List Signal) (h : isAck sg = false) :
    ackCount (sg :: rest) = ackCount rest := by
  simp [ackCount, List.countP_cons, h]

theorem takeAcks_one_ack (sg : Signal) (rest : List Signal) (h : isAck sg = true) :
    takeAcks 1 (sg :: rest) = [sg] := by
  simp [takeAcks, h]

theorem takeAcks_two_ack (sg : Signal) (rest : List Signal) (h : isAck sg = true) :
    takeAcks 2 (sg :: rest) = sg :: takeAcks 1 rest := by
  simp [takeAcks, h]

theorem takeAcks_cons_noack (n : Nat) (sg : Signal) (rest : List Signal)
    (h : isAck sg = false) :
    takeAcks n (sg :: rest) = sg :: takeAcks n rest := by
  simp [takeAcks, h]

theorem errValFrom_cons_finish (e : Val) (rest : List Signal) :
    errValFrom e (Signal.finish :: rest) = errValFrom e rest := rfl

theorem errValFrom_cons_evFinish (e m : Val) (rest : List Signal) :
    errValFrom e (Signal.ev "finish" m :: rest) = errValFrom e rest := by
  show errValFrom (if "finish" = "error" then m else e) rest = errValFrom e rest
  rw [if_neg (by decide)]

theorem errValFrom_cons_evError (e m : Val) (rest : List Signal) :
    errValFrom e (Signal.ev "error" m :: rest) = errValFrom m rest := rfl

theorem errValFrom_cons_other (e m : Val) (name : String) (rest : List Signal)
    (h : ¬ name = "error") :
    errValFrom e (Signal.ev name m :: rest) = errValFrom e rest := by
  show errValFrom (if name = "error" then m else e) rest = errValFrom e rest
  rw [if_neg h]

theorem finValFrom_cons_finish (v : Val) (rest : List Signal) :
    finValFrom v (Signal.finish :: rest) = finValFrom v rest := rfl

theorem finValFrom_cons_evFinish (v m : Val) (rest : List Signal) :
    finValFrom v (Signal.ev "finish" m :: rest) = finValFrom m rest := rfl

theorem finValFrom_cons_other (v m : Val) (name : String) (rest : List Signal)
    (h : ¬ name = "finish") :
    finValFrom v (Signal.ev name m :: rest) = finValFrom v rest := by
  show finValFrom (if name = "finish" then m else v) rest = finValFrom v rest
  rw [if_neg h]

/-- Full characterization of the gate's output: starting with `cbcount = c` and
`need = 2 - c` acknowledgments outstanding, the response list stays empty until
`need` acknowledgments (of any kind) have arrived, and then consists of exactly
the one response computed, at the moment of the last needed acknowledgment, from
the last recorded `error` and the last recorded `value`. -/
theorem processFrom_responses (sigs : List Signal) :
    ∀ (c need : Nat) (v e : Val) (rs : List (Nat × Val)),
      c + need = 2 → 1 ≤ need →
      (processFrom ⟨c, v, e, rs⟩ sigs).responses =
        rs ++
          (if need ≤ ackCount sigs then
            [mkRespV (errValFrom e (takeAcks need sigs))
                     (finValFrom v (takeAcks need sigs))]
           else []) := by
  induction sigs with
  | nil =>
    intro c need v e rs hsum hpos
    have hnle : ¬ need ≤ ackCount [] := by
      simp only [ackCount, List.countP_nil]; omega
    simp [processFrom, hnle]
  | cons sg rest ih =>
    intro c need v e rs hsum hpos
    rw [processFrom_cons]
    cases sg with
    | finish =>
      by_cases hneed : need = 1
      · subst hneed
        have hc : c = 1 := by omega
        subst hc
        have hstep : stepSig ⟨1, v, e, rs⟩ Signal.finish
            = ⟨2, v, e, rs ++ [mkRespV e v]⟩ := by
          simp [stepSig, fcb, mkRespV]
        rw [hstep, processFrom_stable rest _ (Nat.le_refl 2)]
        have hcnd : 1 ≤ ackCount (Signal.finish :: rest) := by
          rw [ackCount_cons_ack _ _ isAck_finish]; omega
        rw [if_pos hcnd, takeAcks_one_ack _ _ isAck_finish]
        rfl
      · have hn2 : need = 2 := by omega
        have hc : c = 0 := by omega
        subst hn2; subst hc
        have hstep : stepSig ⟨0, v, e, rs⟩ Signal.finish = ⟨1, v, e, rs⟩ := by
          simp [stepSig, fcb]
        rw [hstep, ih 1 1 v e rs rfl (Nat.le_refl 1),
            takeAcks_two_ack _ _ isAck_finish,
            errValFrom_cons_finish, finValFrom_cons_finish,
            ackCount_cons_ack _ _ isAck_finish,
            if_congr (by omega : (1 ≤ ackCount rest) ↔ (2 ≤ ackCount rest + 1)) rfl rfl]
    | ev name message =>
      by_cases hf : name = "finish"
      · subst hf
        by_cases hneed : need = 1
        · subst hneed
          have hc : c = 1 := by omega
          subst hc
          have hstep : stepSig ⟨1, v, e, rs⟩ (Signal.ev "finish" message)
              = ⟨2, message, e, rs ++ [mkRespV e message]⟩ := by
            simp [stepSig, fcb, mkRespV]
          rw [hstep, processFrom_stable rest _ (Nat.le_refl 2)]
          have hcnd : 1 ≤ ackCount (Signal.ev "finish" message :: rest) := by
            rw [ackCount_cons_ack _ _ (isAck_ev_finish message)]; omega
          rw [if_pos hcnd, takeAcks_one_ack _ _ (isAck_ev_finish message)]
          rfl
        · have hn2 : need = 2 := by omega
          have hc : c = 0 := by omega
          subst hn2; subst hc
          have hstep : stepSig ⟨0, v, e, rs⟩ (Signal.ev "finish" message)
              = ⟨1, message, e, rs⟩ := by
            simp [stepSig, fcb]
          rw [hstep, ih 1 1 message e rs rfl (Nat.le_refl 1),
              takeAcks_two_ack _ _ (isAck_ev_finish message),
              errValFrom_cons_evFinish, finValFrom_cons_evFinish,
              ackCount_cons_ack _ _ (isAck_ev_finish message),
              if_congr (by omega : (1 ≤ ackCount rest) ↔ (2 ≤ ackCount rest + 1)) rfl rfl]
      · have hnoack : isAck (Signal.ev name message) = false :=
          isAck_ev_of_ne name message hf
        by_cases he : name = "error"
        · subst he
          have hstep : stepSig ⟨c, v, e, rs⟩ (Signal.ev "error" message)
              = ⟨c, v, message, rs⟩ := by
            simp [stepSig]
          rw [hstep, ih c need v message rs hsum hpos,
              takeAcks_cons_noack _ _ _ hnoack,
              errValFrom_cons_evError,
              finValFrom_cons_other _ _ _ _ (by decide),
              ackCount_cons_noack _ _ hnoack]
        · have hstep : stepSig ⟨c, v, e, rs⟩ (Signal.ev name message)
              = ⟨c, v, e, rs⟩ := by
            simp [stepSig, hf, he]
          rw [hstep, ih c need v e rs hsum hpos,
              takeAcks_cons_noack _ _ _ hnoack,
              errValFrom_cons_other _ _ _ _ he,
              finValFrom_cons_other _ _ _ _ hf,
              ackCount_cons_noack _ _ hnoack]

/-- The gate's output from a fresh request state. -/
theorem runSignals_responses (sigs : List Signal) :
    (runSignals sigs).responses =
      if 2 ≤ ackCount sigs then
        [mkRespV (errValFrom Val.undefined (takeAcks 2 sigs))
                 (finValFrom Val.undefined (takeAcks 2 sigs))]
      else [] := by
  have h := processFrom_responses sigs 0 2 Val.undefined Val.undefined [] rfl
    (by omega)
  simpa [runSignals, initialDispatchSt] using h

/-! ### Claims about the completion gate (C1, C2, C7) -/

/-- C1, counterexample.  The claim says the response is completed only after one
signal from the `finish()`/`fatal()` domain primitive AND one from an
`event("finish", _)` emission, and that driving only one of the two channels
never sends the response.  But `fcb` counts callbacks regardless of origin: the
stream consisting of two bare `finish()` calls — which contains no
`event("finish", _)` emission at all — already sends the response. -/
theorem c1_counterexample :
    (runSignals [Signal.finish, Signal.finish]).responses.length = 1 ∧
    List.countP (fun sg => match sg with
      | Signal.ev name _ => name == "finish"
      | _ => false) [Signal.finish, Signal.finish] = 0 :=
  ⟨rfl, rfl⟩

/-- C1, amended: the dispatcher completes the response exactly when two
acknowledgment callbacks in total have been observed, where `finish()` calls
and `event("finish", _)` emissions both increment the same counter in any
combination; with fewer than two acknowledgments the response is never sent. -/
theorem c1_dual_count_gate (sigs : List Signal) :
    (runSignals sigs).responses.length = if 2 ≤ ackCount sigs then 1 else 0 := by
  rw [runSignals_responses]
  split <;> rfl

/-- C2: a dispatched request produces at most one response however many signals
arrive, and exactly one as soon as at least two acknowledgment signals arrive —
in particular, any number of additional finish/event signals after the second
acknowledgment never produces a second response. -/
theorem c2_exactly_one_response (sigs : List Signal) :
    (runSignals sigs).responses.length ≤ 1 ∧
      (2 ≤ ackCount sigs → (runSignals sigs).responses.length = 1) := by
  rw [runSignals_responses]
  constructor
  · split <;> simp
  · intro h
    rw [if_pos h]
    rfl

/-- C2, witness: a stream with both handshake signals and three extra signals
after the second acknowledgment yields exactly one response. -/
theorem c2_witness :
    (runSignals [Signal.finish, Signal.ev "finish" (Val.str "ok"), Signal.finish,
      Signal.ev "finish" (Val.str "late"),
      Signal.ev "error" (Val.str "late-error")]).responses.length = 1 :=
  (c2_exactly_one_response _).2 (by decide)

/-- C7, counterexample.  The claim says any error recorded via
`event("error", payload)` before the second acknowledgment makes the response a
500 carrying that payload.  But `fcb` tests `if (error)`, i.e. JavaScript
truthiness: recording the falsy error payload `null` still yields a 200
response, not the claimed 500. -/
theorem c7_counterexample :
    (runSignals [Signal.ev "error" Val.null, Signal.finish, Signal.finish]).responses
        = [(200, Val.undefined)] ∧
    (500, Val.null) ∉
      (runSignals [Signal.ev "error" Val.null, Signal.finish, Signal.finish]).responses := by
  have h : (runSignals [Signal.ev "error" Val.null, Signal.finish,
      Signal.finish]).responses = [(200, Val.undefined)] := rfl
  refine ⟨h, ?_⟩
  rw [h]
  simp

/-- C7, amended: when at least two acknowledgment signals arrive, the single
response is computed at the second acknowledgment: a 500 carrying the most
recently recorded error payload if that payload is truthy, otherwise a 200
carrying the most recently recorded `event("finish")` value (`undefined` when
none was recorded). -/
theorem c7_response_content (sigs : List Signal) (h : 2 ≤ ackCount sigs) :
    (runSignals sigs).responses =
      [if truthy (errValFrom Val.undefined (takeAcks 2 sigs)) then
         (500, errValFrom Val.undefined (takeAcks 2 sigs))
       else (200, finValFrom Val.undefined (takeAcks 2 sigs))] := by
  rw [runSignals_responses, if_pos h]
  rfl

/-- C7, witness: a truthy error recorded before the second acknowledgment makes
the response a 500 carrying it. -/
theorem c7_witness :
    (runSignals [Signal.ev "error" (Val.str "boom"), Signal.finish,
      Signal.ev "finish" (Val.str "ok")]).responses = [(500, Val.str "boom")] := by
  rw [c7_response_content _ (by decide)]
  rfl

/-! ### Handler lemmas and claims C3–C6 -/

/-- A task name contained in no queue definition resolves to no task function. -/
theorem lookupTaskFn_eq_none (defns : List QueueDefn) (t : String)
    (h : ∀ d ∈ defns, t ∉ d.tasks) : lookupTaskFn defns t = none := by
  rw [lookupTaskFn, Option.map_eq_none', List.find?_eq_none]
  intro d hd
  rw [List.mem_reverse] at hd
  simpa using h d hd

/-- The parameter-logging step emits exactly one line per dispatched request. -/
theorem loggedLines_handlerEnvelope (timeoutSeconds : Nat)
    (defns : List QueueDefn) (req : Request) (t : String) (p : Val)
    (htask : req.task = some t) (hparams : req.params = some p) :
    loggedLines (handlerEnvelope timeoutSeconds defns req)
      = [if lookupLogParams defns t then LogLine.withParams t p
         else LogLine.suppressed t] := by
  simp only [handlerEnvelope, htask, hparams]
  cases lookupTaskFn defns t <;> simp [loggedLines]

/-- C3: a request whose `x-server-uuid` header differs from the dispatcher's
bound node uuid is rejected with an InternalError whose message names both the
expected and the received identifier, and the handler performs no other action:
no envelope validation result, no timeout extension, no parameter logging, no
task invocation. -/
theorem c3_wrong_target (uuid : String) (timeoutSeconds : Nat)
    (defns : List QueueDefn) (req : Request) (target : String)
    (hdr : req.xServerUuid = some target) (hne : target ≠ uuid) :
    handler uuid timeoutSeconds defns req
      = [Action.sentError (RestError.internalError (wrongServerMsg uuid target))] ∧
    (∃ a b : String, wrongServerMsg uuid target = a ++ (uuid ++ b)) ∧
    (∃ a b : String, wrongServerMsg uuid target = a ++ (target ++ b)) ∧
    (∀ h p, Action.invokedTask h p ∉ handler uuid timeoutSeconds defns req) ∧
    (∀ l, Action.logged l ∉ handler uuid timeoutSeconds defns req) := by
  have heq : handler uuid timeoutSeconds defns req
      = [Action.sentError (RestError.internalError (wrongServerMsg uuid target))] := by
    simp [handler, hdr, hne]
  refine ⟨heq, ?_, ?_, ?_, ?_⟩
  · exact ⟨"received request for wrong server. we are: \x22",
      "\x22 received: \x22" ++ (target ++ "\x22"), rfl⟩
  · exact ⟨"received request for wrong server. we are: \x22" ++ (uuid ++ "\x22 received: \x22"),
      "\x22", by simp [wrongServerMsg, String.append_assoc]⟩
  · intro h p
    rw [heq]
    simp
  · intro l
    rw [heq]
    simp

/-- C3, witness: concrete wrong-target request. -/
theorem c3_witness :
    handler "node-a" 60 []
        { xServerUuid := some "node-b", task := none, params := none }
      = [Action.sentError (RestError.internalError (wrongServerMsg "node-a" "node-b"))] :=
  (c3_wrong_target "node-a" 60 [] _ "node-b" rfl (by decide)).1

/-- C4, counterexample.  The claim quantifies over every request lacking `task`
or `params`; but a request that also carries a mismatching `x-server-uuid`
header is rejected with the wrong-server InternalError (an internal-error
class), not with a validation error: the target check runs first. -/
theorem c4_counterexample :
    handler "node-a" 60 []
        { xServerUuid := some "node-b", task := none, params := none }
      = [Action.sentError (RestError.internalError (wrongServerMsg "node-a" "node-b"))] ∧
    ∀ m : String,
      handler "node-a" 60 []
          { xServerUuid := some "node-b", task := none, params := none }
        ≠ [Action.sentError (RestError.invalidArgument m)] := by
  have h : handler "node-a" 60 []
      { xServerUuid := some "node-b", task := none, params := none }
      = [Action.sentError (RestError.internalError
          (wrongServerMsg "node-a" "node-b"))] := rfl
  refine ⟨h, ?_⟩
  intro m hm
  rw [h] at hm
  simp at hm

/-- C4, amended: every request that passes the target-node check (no
`x-server-uuid` header, or one equal to the dispatcher's uuid) and lacks the
`task` key or the `params` key is rejected with an InvalidArgumentError, and
the handler performs no other action — in particular no handler lookup or task
invocation and no parameter logging. -/
theorem c4_missing_field (uuid : String) (timeoutSeconds : Nat)
    (defns : List QueueDefn) (req : Request)
    (htgt : req.xServerUuid = none ∨ req.xServerUuid = some uuid)
    (hmiss : req.task = none ∨ req.params = none) :
    (∃ m, handler uuid timeoutSeconds defns req
        = [Action.sentError (RestError.invalidArgument m)]) ∧
    (∀ h p, Action.invokedTask h p ∉ handler uuid timeoutSeconds defns req) ∧
    (∀ l, Action.logged l ∉ handler uuid timeoutSeconds defns req) := by
  have henv : handler uuid timeoutSeconds defns req
      = handlerEnvelope timeoutSeconds defns req := by
    rcases htgt with h | h <;> simp [handler, h]
  have hbody : ∃ m, handlerEnvelope timeoutSeconds defns req
      = [Action.sentError (RestError.invalidArgument m)] := by
    cases ht : req.task with
    | none => exact ⟨"Missing key \x27task\x27", by simp [handlerEnvelope, ht]⟩
    | some t =>
      have hp : req.params = none := by
        rcases hmiss with h | h
        · rw [ht] at h; cases h
        · exact h
      exact ⟨"Missing key \x27params\x27", by simp [handlerEnvelope, ht, hp]⟩
  obtain ⟨m, hm⟩ := hbody
  refine ⟨⟨m, henv.trans hm⟩, ?_, ?_⟩
  · intro h p
    rw [henv, hm]
    simp
  · intro l
    rw [henv, hm]
    simp

/-- C4, witness: a well-targeted request with a `task` key but no `params` key
is rejected with a validation error. -/
theorem c4_witness :
    ∃ m, handler "node-a" 60 []
        { xServerUuid := none, task := some "machine_create", params := none }
      = [Action.sentError (RestError.invalidArgument m)] :=
  (c4_missing_field "node-a" 60 [] _ (Or.inl rfl) (Or.inr rfl)).1

/-- C5: a well-formed request naming a task contained in no queue definition is
answered with a ResourceNotFoundError; no task function is invoked, hence (by
the Runner model) no TaskInstance is created and no HistoryEntry is appended.
The handler's only other actions are the timeout extension and the parameter
log line, both of which precede the lookup in the source. -/
theorem c5_unknown_task (uuid : String) (timeoutSeconds : Nat)
    (defns : List QueueDefn) (req : Request) (t : String) (p : Val)
    (htgt : req.xServerUuid = none ∨ req.xServerUuid = some uuid)
    (htask : req.task = some t) (hparams : req.params = some p)
    (hunknown : ∀ d ∈ defns, t ∉ d.tasks) :
    handler uuid timeoutSeconds defns req
      = [Action.setTimeout ((timeoutSeconds + 300) * 1000),
         Action.logged (if lookupLogParams defns t then LogLine.withParams t p
           else LogLine.suppressed t),
         Action.sentError (RestError.resourceNotFound
           ("Unknown task, \x27" ++ t ++ "\x27"))] ∧
    (∀ h q, Action.invokedTask h q ∉ handler uuid timeoutSeconds defns req) ∧
    createdTaskInstances (handler uuid timeoutSeconds defns req) = 0 ∧
    appendedHistoryEntries (handler uuid timeoutSeconds defns req) = 0 := by
  have henv : handler uuid timeoutSeconds defns req
      = handlerEnvelope timeoutSeconds defns req := by
    rcases htgt with h | h <;> simp [handler, h]
  have hfn : lookupTaskFn defns t = none := lookupTaskFn_eq_none defns t hunknown
  have heq : handlerEnvelope timeoutSeconds defns req
      = [Action.setTimeout ((timeoutSeconds + 300) * 1000),
         Action.logged (if lookupLogParams defns t then LogLine.withParams t p
           else LogLine.suppressed t),
         Action.sentError (RestError.resourceNotFound
           ("Unknown task, \x27" ++ t ++ "\x27"))] := by
    simp [handlerEnvelope, htask, hparams, hfn]
  refine ⟨henv.trans heq, ?_, ?_, ?_⟩
  · intro h q
    rw [henv, heq]
    simp
  · rw [henv, heq]
    rfl
  · rw [appendedHistoryEntries, henv, heq]
    rfl

/-- C5, witness: dispatching `unknown_task` against a queue configuration that
does not define it creates no TaskInstance. -/
theorem c5_witness :
    createdTaskInstances (handler "node-a" 60
        [⟨["machine_create", "machine_destroy"], some true, 1⟩]
        { xServerUuid := none, task := some "unknown_task",
          params := some (Val.obj []) }) = 0 :=
  (c5_unknown_task "node-a" 60 _ _ "unknown_task" (Val.obj [])
    (Or.inl rfl) rfl rfl (by decide)).2.2.1

/-- C6: when the task belongs to a queue definition with `log_params === false`,
the parameter-logging step writes only the suppression notice: two requests
differing only in their parameter payloads produce identical log output, and no
log line ever carries the parameters. -/
theorem c6_log_params_suppressed (uuid : String) (timeoutSeconds : Nat)
    (defns : List QueueDefn) (r1 r2 : Request) (t : String) (p1 p2 : Val)
    (hx : r1.xServerUuid = r2.xServerUuid)
    (ht1 : r1.task = some t) (ht2 : r2.task = some t)
    (hp1 : r1.params = some p1) (hp2 : r2.params = some p2)
    (hflag : ∃ d ∈ defns, t ∈ d.tasks ∧ d.log_params = some false) :
    loggedLines (handler uuid timeoutSeconds defns r1)
      = loggedLines (handler uuid timeoutSeconds defns r2) ∧
    (∀ tn pv, LogLine.withParams tn pv
        ∉ loggedLines (handler uuid timeoutSeconds defns r1)) := by
  have hany : defns.any
      (fun d => d.tasks.contains t && d.log_params == some false) = true := by
    obtain ⟨d, hd, hmem, hfalse⟩ := hflag
    rw [List.any_eq_true]
    exact ⟨d, hd, by simp [hmem, hfalse]⟩
  have hlp : lookupLogParams defns t = false := by
    simp only [lookupLogParams]
    rw [hany]
    rfl
  have hl1 : loggedLines (handlerEnvelope timeoutSeconds defns r1)
      = [LogLine.suppressed t] := by
    rw [loggedLines_handlerEnvelope _ _ _ t p1 ht1 hp1, hlp]
    rfl
  have hl2 : loggedLines (handlerEnvelope timeoutSeconds defns r2)
      = [LogLine.suppressed t] := by
    rw [loggedLines_handlerEnvelope _ _ _ t p2 ht2 hp2, hlp]
    rfl
  cases hxs : r1.xServerUuid with
  | none =>
    have hx2 : r2.xServerUuid = none := by rw [← hx, hxs]
    constructor
    · simp [handler, hxs, hx2, hl1, hl2]
    · intro tn pv
      simp [handler, hxs, hl1]
  | some target =>
    have hx2 : r2.xServerUuid = some target := by rw [← hx, hxs]
    by_cases htu : target = uuid
    · constructor
      · simp [handler, hxs, hx2, htu, hl1, hl2]
      · intro tn pv
        simp [handler, hxs, htu, hl1]
    · constructor
      · simp [handler, hxs, hx2, htu, loggedLines]
      · intro tn pv
        simp [handler, hxs, htu, loggedLines]

/-- C6, witness: two dispatches of a `log_params === false` task differing only
in their parameters produce identical log output. -/
theorem c6_witness :
    loggedLines (handler "node-a" 60 [⟨["secret_task"], some false, 7⟩]
        { xServerUuid := none, task := some "secret_task",
          params := some (Val.str "alpha") })
      = loggedLines (handler "node-a" 60 [⟨["secret_task"], some false, 7⟩]
        { xServerUuid := none, task := some "secret_task",
          params := some (Val.str "beta") }) :=
  (c6_log_params_suppressed "node-a" 60 [⟨["secret_task"], some false, 7⟩]
    { xServerUuid := none, task := some "secret_task", params := some (Val.str "alpha") }
    { xServerUuid := none, task := some "secret_task", params := some (Val.str "beta") }
    "secret_task" (Val.str "alpha") (Val.str "beta")
    rfl rfl rfl rfl rfl (by decide)).1

/-! ### JS-object lemmas -/

theorem getKey_cons (k' : String) (v : Val) (o : List (String × Val)) (k : String) :
    getKey ((k', v) :: o) k = if k' == k then v else getKey o k := by
  by_cases h : k' = k
  · subst h
    simp [getKey, List.find?_cons_of_pos]
  · have hb : (k' == k) = false := by simp [h]
    rw [if_neg (by simp [hb])]
    simp only [getKey]
    rw [List.find?_cons_of_neg _ (by simp [hb])]

theorem getKey_setKey (o : List (String × Val)) (k' : String) (v : Val) (k : String) :
    getKey (setKey o k' v) k = if k' == k then v else getKey o k := by
  induction o with
  | nil => simp [setKey, getKey_cons]
  | cons m o ih =>
    obtain ⟨mk, mv⟩ := m
    by_cases h : mk = k'
    · subst h
      rw [show setKey ((mk, mv) :: o) mk v = (mk, v) :: o by simp [setKey]]
      rw [getKey_cons, getKey_cons]
      by_cases hk : mk = k <;> simp [hk]
    · rw [show setKey ((mk, mv) :: o) k' v = (mk, mv) :: setKey o k' v by
        simp [setKey, h]]
      rw [getKey_cons, getKey_cons, ih]
      by_cases hk : mk = k <;> by_cases hk' : k' = k <;> simp_all

theorem getKey_setKeyIf (c : Bool) (o : List (String × Val)) (k' : String)
    (v : Val) (k : String) :
    getKey (setKeyIf c o k' v) k = if c && (k' == k) then v else getKey o k := by
  cases c
  · simp [setKeyIf]
  · simp [setKeyIf, getKey_setKey]

theorem mem_keysOf_setKey (o : List (String × Val)) (k' : String) (v : Val)
    (k : String) (h : k ∈ keysOf (setKey o k' v)) : k ∈ keysOf o ∨ k = k' := by
  induction o with
  | nil =>
    simp [setKey, keysOf] at h
    exact Or.inr h
  | cons m o ih =>
    obtain ⟨mk, mv⟩ := m
    by_cases hm : mk = k'
    · subst hm
      rw [show setKey ((mk, mv) :: o) mk v = (mk, v) :: o by simp [setKey]] at h
      simp only [keysOf, List.map_cons, List.mem_cons] at h ⊢
      rcases h with h | h
      · exact Or.inr h
      · exact Or.inl (Or.inr h)
    · rw [show setKey ((mk, mv) :: o) k' v = (mk, mv) :: setKey o k' v by
        simp [setKey, hm]] at h
      simp only [keysOf, List.map_cons, List.mem_cons] at h ⊢
      rcases h with h | h
      · exact Or.inl (Or.inl h)
      · rcases ih h with h' | h'
        · exact Or.inl (Or.inr h')
        · exact Or.inr h'

theorem mem_keysOf_setKeyIf (c : Bool) (o : List (String × Val)) (k' : String)
    (v : Val) (k : String) (h : k ∈ keysOf (setKeyIf c o k' v)) :
    k ∈ keysOf o ∨ k = k' := by
  cases c
  · exact Or.inl h
  · exact mem_keysOf_setKey o k' v k h

theorem setKey_of_not_mem (o : List (String × Val)) (k : String) (v : Val)
    (h : k ∉ keysOf o) : setKey o k v = o ++ [(k, v)] := by
  induction o with
  | nil => rfl
  | cons m o ih =>
    obtain ⟨mk, mv⟩ := m
    simp only [keysOf, List.map_cons, List.mem_cons, not_or] at h
    have hne : (mk == k) = false := by
      simp only [beq_eq_false_iff_ne, ne_eq]
      intro he
      exact h.1 he.symm
    rw [show setKey ((mk, mv) :: o) k v = (mk, mv) :: setKey o k v by
      simp [setKey, hne]]
    rw [ih h.2, List.cons_append]

/-! ### map_thing and map_payload lemmas (for C10) -/

theorem map_thing_fields_go (MAP : String → Option Bool) :
    ∀ (fields acc : List (String × Val)),
      (List.map Prod.fst fields).Nodup →
      (∀ m ∈ fields, m.1 ∉ keysOf acc) →
      fields.foldl (fun nt m =>
        match MAP m.1 with
        | some true => setKey nt m.1 m.2
        | _ => nt) acc
        = acc ++ fields.filter (fun m => MAP m.1 == some true) := by
  intro fields
  induction fields with
  | nil => intro acc _ _; simp
  | cons m fs ih =>
    intro acc hnd hdisj
    simp only [List.map_cons, List.nodup_cons] at hnd
    obtain ⟨hm, hnd'⟩ := hnd
    rw [List.foldl_cons, List.filter_cons]
    cases hw : MAP m.1 with
    | none =>
      rw [ih acc hnd' (fun q hq => hdisj q (List.mem_cons_of_mem m hq))]
      simp [hw]
    | some b =>
      cases b
      · rw [ih acc hnd' (fun q hq => hdisj q (List.mem_cons_of_mem m hq))]
        simp [hw]
      · simp only [hw]
        have hset : setKey acc m.1 m.2 = acc ++ [m] := by
          rw [setKey_of_not_mem acc m.1 m.2 (hdisj m (List.mem_cons_self m fs)),
            Prod.mk.eta]
        have hdisj' : ∀ q ∈ fs, q.1 ∉ keysOf (acc ++ [m]) := by
          intro q hq
          have h1 : q.1 ∉ keysOf acc := hdisj q (List.mem_cons_of_mem m hq)
          have h2 : ¬ q.1 = m.1 := fun he =>
            hm (he ▸ List.mem_map_of_mem Prod.fst hq)
          simp only [keysOf, List.map_append, List.map_cons, List.map_nil,
            List.mem_append, List.mem_cons, List.not_mem_nil, or_false, not_or]
          exact ⟨h1, h2⟩
        rw [hset, ih (acc ++ [m]) hnd' hdisj']
        simp [List.append_assoc]

theorem map_thing_fields_eq_filter (MAP : String → Option Bool)
    (fields : List (String × Val))
    (hnd : (List.map Prod.fst fields).Nodup) :
    map_thing_fields MAP fields
      = fields.filter (fun m => MAP m.1 == some true) := by
  have h := map_thing_fields_go MAP fields [] hnd (by simp [keysOf])
  simpa [map_thing_fields] using h

theorem scanStep_eq (np : List (String × Val)) (m : String × Val) :
    scanStep np m
      = match scanWrite m with
        | some w => setKey np m.1 w
        | none => np := by
  by_cases h1 : m.1 = "nics"
  · simp [scanStep, scanWrite, h1]
  · by_cases h2 : m.1 = "disks"
    · simp [scanStep, scanWrite, h1, h2]
    · cases hv : VM_PAYLOAD m.1 with
      | none => simp [scanStep, scanWrite, h1, h2, hv]
      | some b => cases b <;> simp [scanStep, scanWrite, h1, h2, hv]

theorem getKey_scanStep_ne (np : List (String × Val)) (m : String × Val)
    (k : String) (h : ¬ m.1 = k) :
    getKey (scanStep np m) k = getKey np k := by
  rw [scanStep_eq]
  cases scanWrite m with
  | none => rfl
  | some w =>
    rw [getKey_setKey]
    simp [h]

theorem getKey_foldl_scan_not_mem (k : String) :
    ∀ (p np : List (String × Val)),
      k ∉ List.map Prod.fst p →
      getKey (p.foldl scanStep np) k = getKey np k := by
  intro p
  induction p with
  | nil => intro np _; rfl
  | cons m fs ih =>
    intro np h
    simp only [List.map_cons, List.mem_cons, not_or] at h
    rw [List.foldl_cons, ih _ h.2,
      getKey_scanStep_ne _ _ _ (fun he => h.1 he.symm)]

/-- With no duplicate keys in the input object, the whitelist scan's result at a
key is determined by the input's binding at that key and what `scanStep` writes
for it. -/
theorem getKey_foldl_scan (k : String) :
    ∀ (p np : List (String × Val)), (List.map Prod.fst p).Nodup →
      getKey (p.foldl scanStep np) k
        = match p.find? (fun m => m.1 == k) with
          | some m =>
            (match scanWrite m with
             | some w => w
             | none => getKey np k)
          | none => getKey np k := by
  intro p
  induction p with
  | nil => intro np _; rfl
  | cons m fs ih =>
    intro np hnd
    simp only [List.map_cons, List.nodup_cons] at hnd
    obtain ⟨hm, hnd'⟩ := hnd
    by_cases hk : m.1 = k
    · rw [List.foldl_cons, getKey_foldl_scan_not_mem k fs _ (hk ▸ hm),
        List.find?_cons_of_pos _ (by simp [hk]), scanStep_eq]
      cases hw : scanWrite m with
      | none => simp [hw]
      | some w => simp [hw, getKey_setKey, hk]
    · rw [List.foldl_cons, ih _ hnd', List.find?_cons_of_neg _ (by simp [hk])]
      simp only [getKey_scanStep_ne _ _ _ hk]

theorem getKey_scan_vm_true (p : List (String × Val)) (k : String)
    (hnd : (List.map Prod.fst p).Nodup)
    (h1 : ¬ k = "nics") (h2 : ¬ k = "disks") (hv : VM_PAYLOAD k = some true) :
    getKey (map_payload_scan p) k = getKey p k := by
  rw [map_payload_scan, getKey_foldl_scan k p [] hnd]
  simp only [getKey]
  cases hf : p.find? (fun m => m.1 == k) with
  | none => rfl
  | some m =>
    have hmk : m.1 = k := by simpa using List.find?_some hf
    simp [scanWrite, hmk, h1, h2, hv]

theorem getKey_foldl_scan_never_written (k : String)
    (h1 : ¬ k = "nics") (h2 : ¬ k = "disks") (hv : ¬ VM_PAYLOAD k = some true) :
    ∀ (p np : List (String × Val)),
      getKey (p.foldl scanStep np) k = getKey np k := by
  intro p
  induction p with
  | nil => intro np; rfl
  | cons m fs ih =>
    intro np
    rw [List.foldl_cons, ih]
    by_cases hk : m.1 = k
    · have hw : scanWrite m = none := by
        have hb1 : (m.1 == "nics") = false := by simp [hk, h1]
        have hb2 : (m.1 == "disks") = false := by simp [hk, h2]
        cases hvv : VM_PAYLOAD m.1 with
        | none => simp [scanWrite, hb1, hb2, hvv]
        | some b =>
          cases b with
          | false => simp [scanWrite, hb1, hb2, hvv]
          | true => exact absurd (hk ▸ hvv) hv
      rw [scanStep_eq, hw]
    · rw [getKey_scanStep_ne _ _ _ hk]

theorem getKey_scan_not_true (p : List (String × Val)) (k : String)
    (h1 : ¬ k = "nics") (h2 : ¬ k = "disks") (hv : ¬ VM_PAYLOAD k = some true) :
    getKey (map_payload_scan p) k = Val.undefined := by
  rw [map_payload_scan, getKey_foldl_scan_never_written k h1 h2 hv p []]
  rfl

theorem getKey_scan_nics (p : List (String × Val))
    (hnd : (List.map Prod.fst p).Nodup) :
    getKey (map_payload_scan p) "nics"
      = match p.find? (fun m => m.1 == "nics") with
        | some m => Val.arr (map_thing NIC_PAYLOAD (arrElems m.2))
        | none => Val.undefined := by
  rw [map_payload_scan, getKey_foldl_scan _ p [] hnd]
  cases hf : p.find? (fun m => m.1 == "nics") with
  | none => rfl
  | some m =>
    have hmk : m.1 = "nics" := by simpa using List.find?_some hf
    simp [scanWrite, hmk]

theorem getKey_scan_disks (p : List (String × Val))
    (hnd : (List.map Prod.fst p).Nodup) :
    getKey (map_payload_scan p) "disks"
      = match p.find? (fun m => m.1 == "disks") with
        | some m => Val.arr (map_thing DISK_PAYLOAD (arrElems m.2))
        | none => Val.undefined := by
  rw [map_payload_scan, getKey_foldl_scan _ p [] hnd]
  cases hf : p.find? (fun m => m.1 == "disks") with
  | none => rfl
  | some m =>
    have hmk : m.1 = "disks" := by simpa using List.find?_some hf
    simp [scanWrite, hmk]

theorem mem_keysOf_foldl_scan (k : String) :
    ∀ (p np : List (String × Val)),
      k ∈ keysOf (p.foldl scanStep np) →
      k ∈ keysOf np ∨ VM_PAYLOAD k = some true := by
  intro p
  induction p with
  | nil => intro np h; exact Or.inl h
  | cons m fs ih =>
    intro np h
    rw [List.foldl_cons] at h
    rcases ih (scanStep np m) h with h' | h'
    · rw [scanStep_eq] at h'
      cases hw : scanWrite m with
      | none =>
        rw [hw] at h'
        exact Or.inl h'
      | some w =>
        rw [hw] at h'
        rcases mem_keysOf_setKey _ _ _ _ h' with h'' | h''
        · exact Or.inl h''
        · subst h''
          right
          by_cases h1 : m.1 = "nics"
          · rw [h1]; rfl
          · by_cases h2 : m.1 = "disks"
            · rw [h2]; rfl
            · have hb1 : (m.1 == "nics") = false := by simp [h1]
              have hb2 : (m.1 == "disks") = false := by simp [h2]
              cases hv : VM_PAYLOAD m.1 with
              | none => simp [scanWrite, hb1, hb2, hv] at hw
              | some b =>
                cases b with
                | false => simp [scanWrite, hb1, hb2, hv] at hw
                | true => rfl
    · exact Or.inr h'

theorem mem_keysOf_applyDefaults (np : List (String × Val)) (k : String)
    (h : k ∈ keysOf (applyDefaults np)) :
    k ∈ keysOf np ∨ k ∈ ["nics", "disks", "autoboot", "datasets", "limit_priv",
      "max_locked_memory", "zpool", "zfs_filesystem", "zonepath",
      "zfs_io_priority"] := by
  simp only [applyDefaults] at h
  rcases mem_keysOf_setKeyIf _ _ _ _ _ h with h | rfl
  · rcases mem_keysOf_setKey _ _ _ _ h with h | rfl
    · rcases mem_keysOf_setKey _ _ _ _ h with h | rfl
      · rcases mem_keysOf_setKeyIf _ _ _ _ _ h with h | rfl
        · rcases mem_keysOf_setKeyIf _ _ _ _ _ h with h | rfl
          · rcases mem_keysOf_setKey _ _ _ _ h with h | rfl
            · rcases mem_keysOf_setKey _ _ _ _ h with h | rfl
              · rcases mem_keysOf_setKey _ _ _ _ h with h | rfl
                · rcases mem_keysOf_setKeyIf _ _ _ _ _ h with h | rfl
                  · rcases mem_keysOf_setKeyIf _ _ _ _ _ h with h | rfl
                    · exact Or.inl h
                    · exact Or.inr (by simp)
                  · exact Or.inr (by simp)
                · exact Or.inr (by simp)
              · exact Or.inr (by simp)
            · exact Or.inr (by simp)
          · exact Or.inr (by simp)
        · exact Or.inr (by simp)
      · exact Or.inr (by simp)
    · exact Or.inr (by simp)
  · exact Or.inr (by simp)

theorem map_payload_autoboot (p : List (String × Val)) :
    getKey (map_payload p) "autoboot" = Val.bool true := by
  simp [map_payload, applyDefaults, getKey_setKeyIf, getKey_setKey]

theorem map_payload_datasets (p : List (String × Val)) :
    getKey (map_payload p) "datasets" = Val.arr [] := by
  simp [map_payload, applyDefaults, getKey_setKeyIf, getKey_setKey]

theorem map_payload_limit_priv (p : List (String × Val)) :
    getKey (map_payload p) "limit_priv" = Val.str "default" := by
  simp [map_payload, applyDefaults, getKey_setKeyIf, getKey_setKey]

theorem map_payload_zpool (p : List (String × Val)) :
    getKey (map_payload p) "zpool" = Val.str "zones" := by
  have h0 : getKey (map_payload_scan p) "zpool" = Val.undefined :=
    getKey_scan_not_true p "zpool" (by decide) (by decide) (by decide)
  simp [map_payload, applyDefaults, getKey_setKeyIf, getKey_setKey, h0, isUndef]

theorem map_payload_zfs_io_priority (p : List (String × Val)) :
    getKey (map_payload p) "zfs_io_priority" = Val.num 100 := by
  have h0 : getKey (map_payload_scan p) "zfs_io_priority" = Val.undefined :=
    getKey_scan_not_true p "zfs_io_priority" (by decide) (by decide) (by decide)
  simp [map_payload, applyDefaults, getKey_setKeyIf, getKey_setKey, h0, isUndef]

theorem map_payload_zfs_filesystem (p : List (String × Val))
    (hnd : (List.map Prod.fst p).Nodup) :
    getKey (map_payload p) "zfs_filesystem"
      = Val.str ("zones" ++ "/" ++ jsToString (getKey p "uuid")) := by
  have hz : getKey (map_payload_scan p) "zpool" = Val.undefined :=
    getKey_scan_not_true p "zpool" (by decide) (by decide) (by decide)
  have hu : getKey (map_payload_scan p) "uuid" = getKey p "uuid" :=
    getKey_scan_vm_true p "uuid" hnd (by decide) (by decide) (by decide)
  simp [map_payload, applyDefaults, getKey_setKeyIf, getKey_setKey, hz, hu,
    isUndef, jsToString]

theorem map_payload_zonepath (p : List (String × Val))
    (hnd : (List.map Prod.fst p).Nodup) :
    getKey (map_payload p) "zonepath"
      = Val.str ("/" ++ ("zones" ++ "/" ++ jsToString (getKey p "uuid"))) := by
  have hz : getKey (map_payload_scan p) "zpool" = Val.undefined :=
    getKey_scan_not_true p "zpool" (by decide) (by decide) (by decide)
  have hu : getKey (map_payload_scan p) "uuid" = getKey p "uuid" :=
    getKey_scan_vm_true p "uuid" hnd (by decide) (by decide) (by decide)
  simp [map_payload, applyDefaults, getKey_setKeyIf, getKey_setKey, hz, hu,
    isUndef, jsToString]

theorem isUndef_undefined : isUndef Val.undefined = true := rfl

theorem map_payload_max_locked_memory (p : List (String × Val))
    (hnd : (List.map Prod.fst p).Nodup) :
    getKey (map_payload p) "max_locked_memory"
      = (if isUndef (getKey p "max_swap") then Val.undefined
         else getKey p "max_swap") := by
  have hm : getKey (map_payload_scan p) "max_locked_memory" = Val.undefined :=
    getKey_scan_not_true p "max_locked_memory" (by decide) (by decide) (by decide)
  have hs : getKey (map_payload_scan p) "max_swap" = getKey p "max_swap" :=
    getKey_scan_vm_true p "max_swap" hnd (by decide) (by decide) (by decide)
  cases hu : isUndef (getKey p "max_swap") with
  | true =>
    simp [map_payload, applyDefaults, getKey_setKeyIf, getKey_setKey, hm, hs,
      hu, isUndef_undefined]
  | false =>
    simp [map_payload, applyDefaults, getKey_setKeyIf, getKey_setKey, hm, hs,
      hu, isUndef_undefined]

theorem map_payload_nics (p : List (String × Val))
    (hnd : (List.map Prod.fst p).Nodup) (m : String × Val)
    (hf : p.find? (fun q => q.1 == "nics") = some m) :
    getKey (map_payload p) "nics"
      = Val.arr (map_thing NIC_PAYLOAD (arrElems m.2)) := by
  have h0 : getKey (map_payload_scan p) "nics"
      = Val.arr (map_thing NIC_PAYLOAD (arrElems m.2)) := by
    rw [getKey_scan_nics p hnd, hf]
  simp [map_payload, applyDefaults, getKey_setKeyIf, getKey_setKey, h0, isUndef]

theorem map_payload_disks (p : List (String × Val))
    (hnd : (List.map Prod.fst p).Nodup) (m : String × Val)
    (hf : p.find? (fun q => q.1 == "disks") = some m) :
    getKey (map_payload p) "disks"
      = Val.arr (map_thing DISK_PAYLOAD (arrElems m.2)) := by
  have h0 : getKey (map_payload_scan p) "disks"
      = Val.arr (map_thing DISK_PAYLOAD (arrElems m.2)) := by
    rw [getKey_scan_disks p hnd, hf]
  simp [map_payload, applyDefaults, getKey_setKeyIf, getKey_setKey, h0, isUndef]

theorem map_payload_keys (p : List (String × Val)) (k : String)
    (h : k ∈ keysOf (map_payload p)) :
    VM_PAYLOAD k = some true ∨
      k ∈ ["autoboot", "datasets", "limit_priv", "max_locked_memory", "zpool",
           "zfs_filesystem", "zonepath", "zfs_io_priority"] := by
  rcases mem_keysOf_applyDefaults _ _ h with h' | h'
  · rcases mem_keysOf_foldl_scan k p [] h' with h'' | h''
    · simp [keysOf] at h''
    · exact Or.inl h''
  · simp only [List.mem_cons, List.not_mem_nil, or_false] at h'
    rcases h' with rfl | rfl | rfl | rfl | rfl | rfl | rfl | rfl | rfl | rfl
    · exact Or.inl (by decide)
    · exact Or.inl (by decide)
    · exact Or.inr (by simp)
    · exact Or.inr (by simp)
    · exact Or.inr (by simp)
    · exact Or.inr (by simp)
    · exact Or.inr (by simp)
    · exact Or.inr (by simp)
    · exact Or.inr (by simp)
    · exact Or.inr (by simp)

/-- C10: on any payload object (JS objects have no duplicate keys), the
constructed VM payload contains only top-level keys whitelisted `true` in
`VM_PAYLOAD` plus the always-set defaults; `nics`/`disks` elements are filtered
to the keys whitelisted `true` in `NIC_PAYLOAD`/`DISK_PAYLOAD`; every other
caller-supplied key is dropped; and the defaults are exactly: `autoboot = true`,
`datasets = []`, `limit_priv = 'default'`, `zpool = 'zones'` (the caller's
`zpool` never survives the whitelist, so it is always absent when the default
applies), `zfs_filesystem = zpool + '/' + uuid`, `zonepath =
'/' + zfs_filesystem`, `zfs_io_priority = 100` (the whitelist maps it `false`,
so it is always absent when the default applies), and `max_locked_memory =
max_swap` when `max_locked_memory` is absent (it always is: the whitelist does
not contain it) and `max_swap` is present. -/
theorem c10_map_payload_whitelist (p : List (String × Val))
    (hnd : (List.map Prod.fst p).Nodup) :
    (∀ k, k ∈ keysOf (map_payload p) → VM_PAYLOAD k = some true ∨
      k ∈ ["autoboot", "datasets", "limit_priv", "max_locked_memory", "zpool",
           "zfs_filesystem", "zonepath", "zfs_io_priority"]) ∧
    getKey (map_payload p) "autoboot" = Val.bool true ∧
    getKey (map_payload p) "datasets" = Val.arr [] ∧
    getKey (map_payload p) "limit_priv" = Val.str "default" ∧
    getKey (map_payload p) "zpool" = Val.str "zones" ∧
    getKey (map_payload p) "zfs_io_priority" = Val.num 100 ∧
    getKey (map_payload p) "zfs_filesystem"
      = Val.str ("zones" ++ "/" ++ jsToString (getKey p "uuid")) ∧
    getKey (map_payload p) "zonepath"
      = Val.str ("/" ++ ("zones" ++ "/" ++ jsToString (getKey p "uuid"))) ∧
    getKey (map_payload p) "max_locked_memory"
      = (if isUndef (getKey p "max_swap") then Val.undefined
         else getKey p "max_swap") ∧
    (∀ m, p.find? (fun q => q.1 == "nics") = some m →
      getKey (map_payload p) "nics"
        = Val.arr (map_thing NIC_PAYLOAD (arrElems m.2))) ∧
    (∀ m, p.find? (fun q => q.1 == "disks") = some m →
      getKey (map_payload p) "disks"
        = Val.arr (map_thing DISK_PAYLOAD (arrElems m.2))) ∧
    (∀ (MAP : String → Option Bool) (things : List Val),
      (∀ t ∈ things, (List.map Prod.fst (objFields t)).Nodup) →
      map_thing MAP things
        = things.map (fun t => Val.obj ((objFields t).filter
            (fun q => MAP q.1 == some true)))) :=
  ⟨map_payload_keys p,
   map_payload_autoboot p,
   map_payload_datasets p,
   map_payload_limit_priv p,
   map_payload_zpool p,
   map_payload_zfs_io_priority p,
   map_payload_zfs_filesystem p hnd,
   map_payload_zonepath p hnd,
   map_payload_max_locked_memory p hnd,
   fun m hf => map_payload_nics p hnd m hf,
   fun m hf => map_payload_disks p hnd m hf,
   fun MAP things h => by
     rw [map_thing]
     exact List.map_congr_left (fun t ht => by
       rw [map_thing_fields_eq_filter MAP (objFields t) (h t ht)])⟩

/-- C10, witness: a concrete payload with a uuid, a whitelisted key, a dropped
key, and a nic with mixed whitelisted/dropped fields. -/
theorem c10_witness :
    (List.map Prod.fst [("uuid", Val.str "abc"), ("alias", Val.str "x"),
      ("bogus_key", Val.num 7)]).Nodup ∧
    getKey (map_payload [("uuid", Val.str "abc"), ("alias", Val.str "x"),
      ("bogus_key", Val.num 7)]) "zpool" = Val.str "zones" :=
  ⟨by decide,
   (c10_map_payload_whitelist [("uuid", Val.str "abc"), ("alias", Val.str "x"),
      ("bogus_key", Val.num 7)] (by decide)).2.2.2.2.1⟩

/-! ### machine_create (C8) and progress (C9) -/

theorem find?_append_of_none {α : Type} (q : α → Bool) (l1 l2 : List α)
    (h : l1.find? q = none) : (l1 ++ l2).find? q = l2.find? q := by
  induction l1 with
  | nil => rfl
  | cons a l ih =>
    cases ha : q a with
    | true =>
      rw [List.find?_cons_of_pos _ ha] at h
      cases h
    | false =>
      rw [List.find?_cons_of_neg _ (by simp [ha])] at h
      rw [List.cons_append, List.find?_cons_of_neg _ (by simp [ha]), ih h]

/-- C8: a `machine_create` dispatch for a fresh uuid runs the whole pipeline —
the five declared steps in declaration order (interleaved only with the
lock-file bookkeeping functions) — stores the mapped payload as the new
resource record, finishes (COMPLETE), and the success result carries exactly
the record loaded back from the store after creation. -/
theorem c8_machine_create_success (w : DummyWorld) (p : List (String × Val))
    (u : String) (hu : getKey p "uuid" = Val.str u)
    (hfresh : lookupVm w u = none) :
    (machineCreateStart w p).outcome
        = TaskOutcome.complete (Val.obj [("vm", Val.obj (map_payload p))]) ∧
    (machineCreateStart w p).executed = mcExecutedSteps ∧
    (machineCreateCreateSteps.map (fun st => st.name)).Sublist
      (machineCreateStart w p).executed ∧
    taskStateOf (machineCreateStart w p).outcome = TaskState.COMPLETE ∧
    lookupVm (machineCreateStart w p).world u
      = some (Val.obj (map_payload p)) := by
  have hus : uuidStr (getKey p "uuid") = u := by rw [hu]; rfl
  have hpc : pre_check w u = none := by
    simp [pre_check, vmExists, hfresh]
  have hfind : w.machines.find? (fun m => m.1 == u) = none :=
    Option.map_eq_none'.mp hfresh
  have hload : lookupVm ⟨w.machines ++ [(u, Val.obj (map_payload p))]⟩ u
      = some (Val.obj (map_payload p)) := by
    simp only [lookupVm]
    rw [find?_append_of_none _ _ _ hfind,
      List.find?_cons_of_pos _ (by simp)]
    rfl
  have hrun : machineCreateStart w p
      = ⟨TaskOutcome.complete (Val.obj [("vm", Val.obj (map_payload p))]),
         mcExecutedSteps, ⟨w.machines ++ [(u, Val.obj (map_payload p))]⟩⟩ := by
    simp [machineCreateStart, hus, hpc, hload]
  rw [hrun]
  refine ⟨rfl, rfl, ?_, rfl, hload⟩
  show (machineCreateCreateSteps.map (fun st => st.name)).Sublist mcExecutedSteps
  decide

/-- C8, witness: creating a fresh uuid in an empty store finishes COMPLETE. -/
theorem c8_witness :
    getKey [("uuid", Val.str "u-1")] "uuid" = Val.str "u-1" ∧
    lookupVm ⟨[]⟩ "u-1" = none ∧
    taskStateOf (machineCreateStart ⟨[]⟩ [("uuid", Val.str "u-1")]).outcome
      = TaskState.COMPLETE :=
  ⟨rfl, rfl,
   (c8_machine_create_success ⟨[]⟩ [("uuid", Val.str "u-1")] "u-1"
     rfl rfl).2.2.2.1⟩

theorem chain'_of_nondecreasingB :
    ∀ l : List Nat, nondecreasingB l = true →
      List.Chain' (fun a b => a ≤ b) l
  | [], _ => List.chain'_nil
  | [a], _ => by simp
  | a :: b :: t, h => by
    rw [nondecreasingB] at h
    simp only [Bool.and_eq_true] at h
    rw [List.chain'_cons]
    exact ⟨Nat.le_of_ble_eq_true h.1, chain'_of_nondecreasingB (b :: t) h.2⟩

/-- C9: the declared absolute checkpoints of `machine_create.createSteps` are
`[20, 30, 50, 60, 100]`, a non-decreasing sequence within `[0, 100]`, and on
every execution path of the recovery-configuration task the sequence of values
passed to `self.progress(...)` is non-decreasing and within `[0, 100]` (the
values are naturals, so `0 ≤ v` is automatic). -/
theorem c9_progress_monotone :
    (machineCreateCreateSteps.map (fun st => st.progress) = [20, 30, 50, 60, 100]) ∧
    List.Chain' (fun a b => a ≤ b)
      (machineCreateCreateSteps.map (fun st => st.progress)) ∧
    (∀ v ∈ machineCreateCreateSteps.map (fun st => st.progress), v ≤ 100) ∧
    (∀ e : RecoveryEnv, List.Chain' (fun a b => a ≤ b) (recoveryProgressTrace e) ∧
      ∀ v ∈ recoveryProgressTrace e, v ≤ 100) := by
  have hB : ∀ e : RecoveryEnv,
      nondecreasingB (recoveryProgressTrace e) = true ∧
      (recoveryProgressTrace e).all (fun v => Nat.ble v 100) = true := by
    rintro ⟨rp, act, tp, sc, dns, ad, zp, sm, ws⟩
    cases act
    · revert rp tp sc dns ad zp sm ws
      decide
    · revert rp tp sc dns ad zp sm ws
      decide
    · revert rp tp sc dns ad zp sm ws
      decide
  refine ⟨rfl, chain'_of_nondecreasingB _ (by decide), by decide, ?_⟩
  intro e
  refine ⟨chain'_of_nondecreasingB _ (hB e).1, ?_⟩
  intro v hv
  exact Nat.le_of_ble_eq_true (List.all_eq_true.mp (hB e).2 v hv)

end SdcCnAgent
